import Mathlib

/-!
Verification development for the `bucket` chat-bot plugin (src/plugin.go of
belak/go-seabird-bucket).

The plugin classifies an inbound chat message against an ordered chain of
anchored regular expressions (first match wins) and executes the matching
branch against a persistent store of facts and variables.  This file gives a
shallow embedding of that logic:

* each package-level `xxxRegexp` of the Go source becomes a Lean function of
  the same name deciding the match and producing the submatch captures,
  implementing Go's leftmost-first (Perl-style) matching semantics for that
  particular pattern (lazy `(.+?)` tries the shortest prefix first, the
  alternation `(is|is also|are|<\w+>)` tries alternatives left to right,
  `.` does not match a newline, `(?i)` folds case — modelled for the ASCII
  range, which covers every literal appearing in these patterns);
* the body of `mentionCallback` becomes a pure function from the inbound
  message, a randomness oracle and the store to the new store plus the list
  of emitted replies;
* the external `nut` storage engine (out of scope per the design document,
  specified only at its interface boundary) is modelled as association lists
  behind `Get`/`Put`/`Delete` operations keyed case-insensitively.
-/

/-- ASCII case folding of one character: upper-case ASCII letters map to
lower-case, everything else is fixed.  Models the case folding Go applies for
the `(?i)` flag on the (all-ASCII) literals of this plugin's patterns and for
`strings.ToLower` on the (chat-supplied) keys. -/
def foldChar (c : Char) : Char :=
  if 65 ≤ c.toNat ∧ c.toNat ≤ 90 then Char.ofNat (c.toNat + 32) else c

/-- Go `strings.ToLower`, modelled on the ASCII range. -/
def toLowerGo (s : String) : String :=
  String.mk (s.data.map foldChar)

/-- Character class `\w` of Go regexp: `[0-9A-Za-z_]`. -/
def isWordChar (c : Char) : Bool :=
  c = '_' || (48 ≤ c.toNat && c.toNat ≤ 57) || (65 ≤ c.toNat && c.toNat ≤ 90) ||
    (97 ≤ c.toNat && c.toNat ≤ 122)

/-- Character class `\d` of Go regexp: `[0-9]`. -/
def isDigitChar (c : Char) : Bool :=
  48 ≤ c.toNat && c.toNat ≤ 57

/-- Whether a character list is free of newlines.  Go's `.` (with no `s`
flag) matches any character except `\n`, so every `(.*)`/`(.+)`/`(.+?)`
capture of the plugin's patterns is newline-free. -/
def noNL (s : List Char) : Bool :=
  s.all fun c => c != '\n'

/-- Case-insensitive anchored literal matcher: `stripCI pat s` consumes the
literal `pat` (given in lower case) from the front of `s` and returns the
remainder, or `none` when `s` does not start with `pat` up to ASCII case.
This models the literal portions of the plugin's `(?i)^...` patterns. -/
def stripCI : List Char → List Char → Option (List Char)
  | [], s => some s
  | _ :: _, [] => none
  | p :: ps, c :: cs => if foldChar c = p then stripCI ps cs else none

/-- Embedding of `literalRegexp = (?i)^literal(?:\[(\d+)\])? (.*)$`.
Returns `(match[1], match[2])`: the optional index digits and the lookup
text.  The optional group is greedy; when it matches but is not followed by
a space the whole pattern fails, because the backtracked alternative (no
group) immediately requires a space where the `[` stands. -/
def literalRegexp (s : List Char) : Option (Option (List Char) × List Char) :=
  match stripCI "literal".data s with
  | none => none
  | some t =>
    match t with
    | ' ' :: r => if noNL r = true then some (none, r) else none
    | '[' :: u =>
      let ds := u.takeWhile isDigitChar
      match u.dropWhile isDigitChar with
      | ']' :: ' ' :: r =>
        if ds ≠ [] ∧ noNL r = true then some (some ds, r) else none
      | _ => none
    | _ => none

/-- Embedding of `undoRegexp = (?i)^undo(?: last)?$`. -/
def undoRegexp (s : List Char) : Bool :=
  match stripCI "undo".data s with
  | none => false
  | some r => (r == []) || (stripCI " last".data r == some [])

/-- Split at the last occurrence of `" [-=]> "` (the first `(.*)` of the
merge/alias patterns is greedy, so the rightmost arrow wins), requiring both
captures to be newline-free. -/
def arrowSplit : List Char → Option (List Char × List Char)
  | [] => none
  | c :: rest =>
    match (if c ≠ '\n' then (arrowSplit rest).map (fun p => (c :: p.1, p.2)) else none) with
    | some p => some p
    | none =>
      match c, rest with
      | ' ', d :: '>' :: ' ' :: b =>
        if (d = '-' ∨ d = '=') ∧ noNL b = true then some ([], b) else none
      | _, _ => none

/-- Embedding of `mergeRegexp = (?i)^merge (.*) [-=]> (.*)$`. -/
def mergeRegexp (s : List Char) : Option (List Char × List Char) :=
  (stripCI "merge ".data s).bind arrowSplit

/-- Embedding of `aliasRegexp = (?i)^alias (.*) [-=]> (.*)$`. -/
def aliasRegexp (s : List Char) : Option (List Char × List Char) :=
  (stripCI "alias ".data s).bind arrowSplit

/-- Embedding of `lookupRegexp = (?i)^lookup (.*)$`. -/
def lookupRegexp (s : List Char) : Option (List Char) :=
  (stripCI "lookup ".data s).bind fun r => if noNL r = true then some r else none

/-- Verb alternative `is` followed by the pattern's literal space and the
final greedy `(.+)$`; returns (captured verb text, match[3]). -/
def tryIs : List Char → Option (List Char × List Char)
  | c1 :: c2 :: c3 :: rest =>
    if foldChar c1 = 'i' ∧ foldChar c2 = 's' ∧ c3 = ' ' ∧ rest ≠ [] ∧ noNL rest = true then
      some ([c1, c2], rest)
    else none
  | _ => none

/-- Verb alternative `is also` (kept for fidelity to the pattern's
alternation even though the `is` alternative always preempts it). -/
def tryIsAlso : List Char → Option (List Char × List Char)
  | c1 :: c2 :: c3 :: rest1 =>
    if foldChar c1 = 'i' ∧ foldChar c2 = 's' ∧ c3 = ' ' then
      match rest1 with
      | c4 :: c5 :: c6 :: c7 :: c8 :: rest =>
        if foldChar c4 = 'a' ∧ foldChar c5 = 'l' ∧ foldChar c6 = 's' ∧ foldChar c7 = 'o' ∧
            c8 = ' ' ∧ rest ≠ [] ∧ noNL rest = true then
          some ([c1, c2, c3, c4, c5, c6, c7], rest)
        else none
      | _ => none
    else none
  | _ => none

/-- Verb alternative `are`. -/
def tryAre : List Char → Option (List Char × List Char)
  | c1 :: c2 :: c3 :: c4 :: rest =>
    if foldChar c1 = 'a' ∧ foldChar c2 = 'r' ∧ foldChar c3 = 'e' ∧ c4 = ' ' ∧
        rest ≠ [] ∧ noNL rest = true then
      some ([c1, c2, c3], rest)
    else none
  | _ => none

/-- Verb alternative `<\w+>` (a custom copula in angle brackets). -/
def tryBracketVerb : List Char → Option (List Char × List Char)
  | c :: u =>
    if c = '<' then
      let ws := u.takeWhile isWordChar
      match u.dropWhile isWordChar with
      | '>' :: ' ' :: rest =>
        if ws ≠ [] ∧ rest ≠ [] ∧ noNL rest = true then
          some ('<' :: (ws ++ ['>']), rest)
        else none
      | _ => none
    else none
  | [] => none

/-- The verb group `(is|is also|are|<\w+>)` followed by a space and
`(.+)$`, trying the alternatives in the pattern's left-to-right order. -/
def tryVerb (u : List Char) : Option (List Char × List Char) :=
  tryIs u <|> tryIsAlso u <|> tryAre u <|> tryBracketVerb u

/-- Backtracking engine shared by `isRegexp` and `forgetIsRegexp`:
`(.+?) (is|is also|are|<\w+>) (.+)$`.  The lazy `(.+?)` commits to the
shortest prefix first: characters are moved one at a time into the reversed
accumulator `acc`; at each space (with a nonempty accumulator, since `(.+?)`
needs at least one character) the verb group is tried on the remainder, and
the first success wins.  A newline aborts the scan because `.` cannot match
it. -/
def isSplitAux (acc : List Char) : List Char → Option (List Char × List Char × List Char)
  | [] => none
  | c :: rest =>
    if c = '\n' then none
    else
      match (if c = ' ' ∧ acc ≠ [] then tryVerb rest else none) with
      | some (vb, m3) => some (acc.reverse, vb, m3)
      | none => isSplitAux (c :: acc) rest

/-- Embedding of `forgetIsRegexp = (?i)^forget (.+?) (is|is also|are|<\w+>) (.+)$`.
Returns `(match[1], match[2], match[3])`. -/
def forgetIsRegexp (s : List Char) : Option (List Char × List Char × List Char) :=
  (stripCI "forget ".data s).bind (isSplitAux [])

/-- Embedding of `forgetRegexp = (?i)^forget (.*)$`. -/
def forgetRegexp (s : List Char) : Option (List Char) :=
  (stripCI "forget ".data s).bind fun r => if noNL r = true then some r else none

/-- Embedding of `whatRegexp = (?i)^what was that\??$`. -/
def whatRegexp (s : List Char) : Bool :=
  match stripCI "what was that".data s with
  | some [] => true
  | some ['?'] => true
  | _ => false

/-- Embedding of `listVarsRegexp = (?i)^list vars$`. -/
def listVarsRegexp (s : List Char) : Bool :=
  stripCI "list vars".data s == some []

/-- Final capture `(\w+)$`: the whole remainder must be one nonempty run of
word characters. -/
def wordOnly (r : List Char) : Option (List Char) :=
  if r ≠ [] ∧ r.all isWordChar = true then some r else none

/-- Embedding of `listVarRegexp = (?i)^list var (\w+)$`. -/
def listVarRegexp (s : List Char) : Option (List Char) :=
  (stripCI "list var ".data s).bind wordOnly

/-- Captures `(\w+) (.*)$`: a maximal nonempty run of word characters, a
space, then the (possibly empty) newline-free remainder.  Taking the run
maximal is faithful to the greedy `\w+`: any shorter run would be followed
by a word character, not the required space. -/
def wordThenRest (r : List Char) : Option (List Char × List Char) :=
  let ws := r.takeWhile isWordChar
  match r.dropWhile isWordChar with
  | ' ' :: rest => if ws ≠ [] ∧ noNL rest = true then some (ws, rest) else none
  | _ => none

/-- Embedding of `removeValRegexp = (?i)^remove value (\w+) (.*)$`. -/
def removeValRegexp (s : List Char) : Option (List Char × List Char) :=
  (stripCI "remove value ".data s).bind wordThenRest

/-- Embedding of `addValRegexp = (?i)^add value (\w+) (.*)$`. -/
def addValRegexp (s : List Char) : Option (List Char × List Char) :=
  (stripCI "add value ".data s).bind wordThenRest

/-- Embedding of `createVarRegexp = (?i)^create var (\w+)$`. -/
def createVarRegexp (s : List Char) : Option (List Char) :=
  (stripCI "create var ".data s).bind wordOnly

/-- Embedding of `removeVarRegexp = (?i)^remove var (\w+)$`. -/
def removeVarRegexp (s : List Char) : Option (List Char) :=
  (stripCI "remove var ".data s).bind wordOnly

/-- Embedding of `fullInventoryRegexp = (?i)^(?:detailed inventory|list item details)$`. -/
def fullInventoryRegexp (s : List Char) : Bool :=
  (stripCI "detailed inventory".data s == some []) ||
    (stripCI "list item details".data s == some [])

/-- Embedding of `inventoryRegexp = (?i)^(?:inventory|list items)$`. -/
def inventoryRegexp (s : List Char) : Bool :=
  (stripCI "inventory".data s == some []) || (stripCI "list items".data s == some [])

/-- Embedding of `renderRegexp = (?i)^render (.*)$`. -/
def renderRegexp (s : List Char) : Option (List Char) :=
  (stripCI "render ".data s).bind fun r => if noNL r = true then some r else none

/-- Embedding of `isRegexp = (?i)^(.+?) (is|is also|are|<\w+>) (.+)$`. -/
def isRegexp (s : List Char) : Option (List Char × List Char × List Char) :=
  isSplitAux [] s

/-- Go struct `bucketMessage`: the per-request context extracted from the
inbound IRC message (lines 126-147 of the source; `OP` is the privileged
flag computed from the channel tracker, treated here as an input per the
design document's requester context). -/
structure bucketMessage where
  Data : String
  Who : String
  OP : Bool
  Public : Bool
  Target : String
deriving DecidableEq, Repr

/-- Go struct `bucketFactResponse`. -/
structure bucketFactResponse where
  Text : String
  Creator : String
  Verb : String
deriving DecidableEq, Repr

/-- Go struct `bucketFact`: the core bucket type stored in the database. -/
structure bucketFact where
  Responses : List bucketFactResponse := []
deriving DecidableEq, Repr

/-- Go struct `bucketValue`. -/
structure bucketValue where
  Text : String
  Creator : String
deriving DecidableEq, Repr

/-- Go struct `bucketVariable`.  The zero value (no values, empty creator)
is what a fresh `&bucketVariable{}` holds before a successful `Get`. -/
structure bucketVariable where
  Values : List bucketValue := []
  Creator : String := ""
deriving DecidableEq, Repr

instance : Inhabited bucketFact := ⟨{}⟩

instance : Inhabited bucketVariable := ⟨{}⟩

/-- Modelled from the spec: the external `nut` transactional storage engine
is out of scope of the source (only its call sites are in src/); section 6
of the design document specifies per-namespace atomic `Get`/`Put`/`Delete`
"keyed by case-insensitive string".  A namespace is modelled as an
association list whose keys are kept lower-cased; every operation folds its
key argument, which realises the case-insensitive contract. -/
def kvGet {α : Type} (l : List (String × α)) (k : String) : Option α :=
  (l.find? fun p => p.1 == toLowerGo k).map Prod.snd

/-- Modelled from the spec: `Put` of the storage collaborator (see `kvGet`);
replaces the value at the (case-folded) key or appends a fresh entry. -/
def kvPut {α : Type} : List (String × α) → String → α → List (String × α)
  | [], k, v => [(toLowerGo k, v)]
  | (k', v') :: rest, k, v =>
    if k' = toLowerGo k then (k', v) :: rest else (k', v') :: kvPut rest k v

/-- Modelled from the spec: `Delete` of the storage collaborator (see
`kvGet`); removing an absent key is a no-op. -/
def kvDelete {α : Type} : List (String × α) → String → List (String × α)
  | [], _ => []
  | (k', v') :: rest, k =>
    if k' = toLowerGo k then rest else (k', v') :: kvDelete rest k

/-- Modelled from the spec: the error text `err.Error()` produced by the
storage engine's `Get` for an absent key (surfaced verbatim by the
`add value` branch); the exact wording lives in the external engine, the
design document only fixes that non-existence is reported. -/
def nutKeyNotFound : String := "key not found"

/-- The two persisted namespaces `facts` and `vars` of the `bucket`
database. -/
structure Store where
  facts : List (String × bucketFact) := []
  vars : List (String × bucketVariable) := []
deriving DecidableEq, Repr

/-- A reply emitted through the transport: `b.Reply` (targeted) or
`b.MentionReply` (prefixed mention), already formatted. -/
inductive Reply where
  | reply (text : String)
  | mentionReply (text : String)
deriving DecidableEq, Repr

/-- Verb normalization shared (textually duplicated) by the forget-response
branch (lines 180-185) and the generic statement branch (lines 330-335):
`"is also"` becomes `"is"`; otherwise a verb starting with `<` loses its
first and last character; every other verb is returned unchanged. -/
def normalizeVerb (v : List Char) : List Char :=
  if v = "is also".data then "is".data
  else if v.head? = some '<' then v.tail.dropLast
  else v

/-- The removal loop of the forget-response branch (lines 192-198): scan the
responses in order, delete the first whose `Text` and `Verb` both equal the
requested pair (then `break`), and report whether one was found. -/
def removeFirstMatch (verb text : String) : List bucketFactResponse →
    Bool × List bucketFactResponse
  | [] => (false, [])
  | r :: rest =>
    if r.Text = text ∧ r.Verb = verb then (true, rest)
    else
      let p := removeFirstMatch verb text rest
      (p.1, r :: p.2)

/-- Go `fmt` rendering `%+v` of a `bucketFactResponse` value. -/
def formatResponsePV (r : bucketFactResponse) : String :=
  "\x7bText:" ++ r.Text ++ " Creator:" ++ r.Creator ++ " Verb:" ++ r.Verb ++ "\x7d"

/-- Go `fmt` rendering `%+v` of the `*bucketFact` handed to `MentionReply`
by the literal branch: `&{Responses:[...]}` with space-separated
elements. -/
def formatFactPV (f : bucketFact) : String :=
  "&\x7bResponses:[" ++ String.intercalate " " (f.Responses.map formatResponsePV) ++ "]\x7d"

/-- Go `os.isShellSpecialVar`. -/
def isShellSpecialVar (c : Char) : Bool :=
  c = '*' || c = '#' || c = '$' || c = '@' || c = '!' || c = '?' ||
    (48 ≤ c.toNat && c.toNat ≤ 57)

/-- Go `os.isAlphaNum` (identical to the regexp word class). -/
def isAlphaNum (c : Char) : Bool :=
  c = '_' || (48 ≤ c.toNat && c.toNat ≤ 57) || (97 ≤ c.toNat && c.toNat ≤ 122) ||
    (65 ≤ c.toNat && c.toNat ≤ 90)

/-- Scan of Go `os.getShellName` for the `${...}` form, over the characters
after the opening brace: the first `}` closes the name; `${}` is bad syntax
eating two characters; an unterminated `${` eats one. -/
def braceScan (rest : List Char) : List Char × Nat :=
  match rest.findIdx? fun c => c == '\x7d' with
  | some 0 => ([], 2)
  | some i => (rest.take i, i + 2)
  | none => ([], 1)

/-- The `${...}` arm of Go `os.getShellName`, applied to the characters
after the opening brace: `len(s) > 2 && isShellSpecialVar(s[1]) && s[2]=='}'`
yields a one-character special name of width 3, otherwise the brace scan
decides. -/
def braceName (rest : List Char) : List Char × Nat :=
  match rest with
  | a :: b :: _ =>
    if isShellSpecialVar a ∧ b = '\x7d' then ([a], 3) else braceScan rest
  | _ => braceScan rest

/-- Go `os.getShellName`: the variable name starting at the character after
a `$`, together with the number of characters consumed. -/
def getShellName : List Char → List Char × Nat
  | [] => ([], 0)
  | c :: rest =>
    if c = '\x7b' then braceName rest
    else if isShellSpecialVar c then ([c], 1)
    else
      let run := (c :: rest).takeWhile isAlphaNum
      (run, run.length)

/-- Go `os.Expand`, specialised to this plugin's use: walk the text, and at
each `$` (not in final position) resolve a shell-style name via
`getShellName`, substituting `mapping name`.  `mapping` threads a counter
`cnt` (the number of random draws consumed so far) so that the randomised
substitution of the render branch stays a pure function of the oracle. -/
def expandGo (mapping : List Char → Nat → List Char × Nat) :
    List Char → Nat → List Char × Nat
  | [], cnt => ([], cnt)
  | c :: rest, cnt =>
    if c = '$' then
      match rest with
      | [] => (['$'], cnt)
      | d :: rest2 =>
        let (name, w) := getShellName (d :: rest2)
        if name = [] ∧ w > 0 then expandGo mapping ((d :: rest2).drop w) cnt
        else if name = [] then
          let p := expandGo mapping (d :: rest2) cnt
          ('$' :: p.1, p.2)
        else
          let q := mapping name cnt
          let p := expandGo mapping ((d :: rest2).drop w) q.2
          (q.1 ++ p.1, p.2)
    else
      let p := expandGo mapping rest cnt
      (c :: p.1, p.2)
termination_by s _ => s.length
decreasing_by
  all_goals simp [List.length_drop]
  all_goals omega

/-- The variable-resolution closure the render branch passes to
`os.Expand` (lines 359-369): fetch the variable under the reference name as
written (the branch applies no `strings.ToLower` of its own), substitute the
empty string when it has no values, otherwise a value picked by
`rand.Intn(len(values))` — modelled as `rng cnt % len` for the oracle
`rng`, advancing the draw counter. -/
def renderMapping (st : Store) (rng : Nat → Nat) (name : List Char) (cnt : Nat) :
    List Char × Nat :=
  let outVar := (kvGet st.vars (String.mk name)).getD {}
  if h : outVar.Values.length = 0 then ([], cnt)
  else
    ((outVar.Values.get ⟨rng cnt % outVar.Values.length, Nat.mod_lt _
      (Nat.pos_of_ne_zero h)⟩).Text.data, cnt + 1)

/-- Template rendering as performed by the render branch: `os.Expand` over
the message text with `renderMapping`. -/
def renderTemplate (st : Store) (rng : Nat → Nat) (text : List Char) : List Char :=
  (expandGo (renderMapping st rng) text 0).1

/-- The literal branch (lines 149-163): fetch the fact under the lower-cased
lookup text (absence leaves the zero value) and mention-reply its `%+v`
rendering; the optional index capture is unused (`TODO: Handle match[1]`). -/
def literalHandler (st : Store) (m2 : List Char) : Store × List Reply :=
  let key := toLowerGo (String.mk m2)
  let out := (kvGet st.facts key).getD {}
  (st, [Reply.mentionReply (formatFactPV out)])

/-- The forget-response branch (lines 173-214): normalize the verb, delete
the first response matching `(text, verb)`, write the fact back
unconditionally (`bucket.Put` runs whether or not anything was found, and
even when the key was absent), and reply found/not-found. -/
def forgetIsHandler (who : String) (m1 m2 m3 : List Char) (st : Store) :
    Store × List Reply :=
  let key := toLowerGo (String.mk m1)
  let verb := String.mk (normalizeVerb m2)
  let out := (kvGet st.facts key).getD {}
  let p := removeFirstMatch verb (String.mk m3) out.Responses
  let st' := { st with facts := kvPut st.facts key { Responses := p.2 } }
  if p.1 then
    (st', [Reply.reply ("Ok " ++ who ++ ", forgot " ++ String.mk m1 ++ " " ++ verb ++
      " " ++ String.mk m3)])
  else
    (st', [Reply.reply ("Ok " ++ who ++ ", couldn't find " ++ String.mk m1 ++ " " ++
      verb ++ " " ++ String.mk m3)])

/-- The list-var branch (lines 219-238).  The `first` flag is declared but
never set to `true`, so `!first` always holds and the `", "` separator is
written before every value, including the first. -/
def listVarHandler (who : String) (m1 : List Char) (st : Store) : Store × List Reply :=
  let key := toLowerGo (String.mk m1)
  let out := (kvGet st.vars key).getD {}
  let listing := String.join (out.Values.map fun v => ", " ++ v.Text)
  (st, [Reply.reply ("Ok " ++ who ++ ", " ++ key ++ " is " ++ listing)])

/-- The add-value branch (lines 242-273): a failed `Get` (missing variable)
aborts the transaction and surfaces the storage error through
`b.Reply(m, "Ok %s, %s", err.Error())` — a format string with two verbs but
a single argument, producing Go's missing-argument marker; otherwise the
value is appended (with the requester as creator) and the write
confirmed. -/
def addValHandler (who : String) (m1 m2 : List Char) (st : Store) : Store × List Reply :=
  let key := toLowerGo (String.mk m1)
  let val : bucketValue := { Text := String.mk m2, Creator := who }
  match kvGet st.vars key with
  | none =>
    (st, [Reply.reply ("Ok " ++ nutKeyNotFound ++ ", %!s(MISSING)")])
  | some out =>
    ({ st with vars := kvPut st.vars key { out with Values := out.Values ++ [val] } },
      [Reply.reply ("Ok " ++ who ++ ", added " ++ val.Text ++ " to variable " ++ key)])

/-- The create-var branch (lines 274-299): an empty stored creator means the
variable does not exist yet; either way the record is written back
(`bucket.Put` runs unconditionally inside the update). -/
def createVarHandler (who : String) (m1 : List Char) (st : Store) : Store × List Reply :=
  let key := toLowerGo (String.mk m1)
  let out := (kvGet st.vars key).getD {}
  if out.Creator = "" then
    ({ st with vars := kvPut st.vars key { out with Creator := who } },
      [Reply.reply ("Ok " ++ who ++ ", created variable " ++ key)])
  else
    ({ st with vars := kvPut st.vars key out },
      [Reply.reply ("Ok " ++ who ++ ", variable " ++ key ++ " already created")])

/-- The remove-var branch (lines 300-320): the key is deleted whether or not
it existed; the reply distinguishes existence via the fetched creator. -/
def removeVarHandler (who : String) (m1 : List Char) (st : Store) : Store × List Reply :=
  let key := toLowerGo (String.mk m1)
  let out := (kvGet st.vars key).getD {}
  let st' := { st with vars := kvDelete st.vars key }
  if out.Creator ≠ "" then
    (st', [Reply.reply ("Ok " ++ who ++ ", removed variable " ++ key)])
  else
    (st', [Reply.reply ("Ok " ++ who ++ ", variable " ++ key ++ " doesn't exist")])

/-- The generic statement branch (lines 323-357): append a response (with
normalized verb and the requester as creator) to the fact under the
lower-cased key, creating the fact when absent, and confirm. -/
def isHandler (who : String) (m1 m2 m3 : List Char) (st : Store) : Store × List Reply :=
  let key := toLowerGo (String.mk m1)
  let verb := String.mk (normalizeVerb m2)
  let out := (kvGet st.facts key).getD {}
  let resp : bucketFactResponse := { Text := String.mk m3, Creator := who, Verb := verb }
  ({ st with facts := kvPut st.facts key { Responses := out.Responses ++ [resp] } },
    [Reply.reply ("Ok " ++ who ++ ", " ++ String.mk m1 ++ " " ++ verb ++ " " ++
      String.mk m3)])

/-- The render branch (lines 358-370): mention-reply the template expansion
of the captured text against the variable store. -/
def renderHandler (rng : Nat → Nat) (m1 : List Char) (st : Store) : Store × List Reply :=
  (st, [Reply.mentionReply (String.mk (renderTemplate st rng m1))])

/-- The body of `mentionCallback` (lines 149-374) from the point where the
message context `bm` has been assembled: the ordered first-match-wins chain
of regexes, each matching arm running its branch against the store and
emitting its replies.  Branches whose Go body is empty (undo, merge, alias,
lookup, bare forget, what-was-that, list-vars, remove-value, the two
inventories and the final implicit-lookup fallback) change nothing and emit
nothing.  The create-var and remove-var arms are guarded by `bm.OP` inside
the match condition, exactly as the source's `bm.OP && len(match) > 0`. -/
def mentionCallback (bm : bucketMessage) (rng : Nat → Nat) (st : Store) :
    Store × List Reply :=
  let data := bm.Data.data
  match literalRegexp data with
  | some m => literalHandler st m.2
  | none =>
  if undoRegexp data then (st, [])
  else match mergeRegexp data with
  | some _ => (st, [])
  | none =>
  match aliasRegexp data with
  | some _ => (st, [])
  | none =>
  match lookupRegexp data with
  | some _ => (st, [])
  | none =>
  match forgetIsRegexp data with
  | some m => forgetIsHandler bm.Who m.1 m.2.1 m.2.2 st
  | none =>
  match forgetRegexp data with
  | some _ => (st, [])
  | none =>
  if whatRegexp data then (st, [])
  else if listVarsRegexp data then (st, [])
  else match listVarRegexp data with
  | some m1 => listVarHandler bm.Who m1 st
  | none =>
  match removeValRegexp data with
  | some _ => (st, [])
  | none =>
  match addValRegexp data with
  | some m => addValHandler bm.Who m.1 m.2 st
  | none =>
  if bm.OP ∧ (createVarRegexp data).isSome then
    createVarHandler bm.Who ((createVarRegexp data).getD []) st
  else if bm.OP ∧ (removeVarRegexp data).isSome then
    removeVarHandler bm.Who ((removeVarRegexp data).getD []) st
  else if fullInventoryRegexp data then (st, [])
  else if inventoryRegexp data then (st, [])
  else match isRegexp data with
  | some m => isHandler bm.Who m.1 m.2.1 m.2.2 st
  | none =>
  match renderRegexp data with
  | some m1 => renderHandler rng m1 st
  | none => (st, [])

/-- The command intents distinguishable in the dispatch chain, one label
per arm, in the source's textual order, plus the implicit-lookup
fallback. -/
inductive Rule where
  | literal
  | undo
  | merge
  | aliasCmd
  | lookupCmd
  | forgetIs
  | forget
  | what
  | listVars
  | listVar
  | removeVal
  | addVal
  | createVar
  | removeVar
  | fullInventory
  | inventory
  | isStatement
  | render
  | fallback
deriving DecidableEq

/-- The dispatch skeleton of `mentionCallback`: which arm of the chain
handles a given message text for a requester with privilege flag `op`. -/
def classify (data : List Char) (op : Bool) : Rule :=
  if (literalRegexp data).isSome then .literal
  else if undoRegexp data then .undo
  else if (mergeRegexp data).isSome then .merge
  else if (aliasRegexp data).isSome then .aliasCmd
  else if (lookupRegexp data).isSome then .lookupCmd
  else if (forgetIsRegexp data).isSome then .forgetIs
  else if (forgetRegexp data).isSome then .forget
  else if whatRegexp data then .what
  else if listVarsRegexp data then .listVars
  else if (listVarRegexp data).isSome then .listVar
  else if (removeValRegexp data).isSome then .removeVal
  else if (addValRegexp data).isSome then .addVal
  else if op ∧ (createVarRegexp data).isSome then .createVar
  else if op ∧ (removeVarRegexp data).isSome then .removeVar
  else if fullInventoryRegexp data then .fullInventory
  else if inventoryRegexp data then .inventory
  else if (isRegexp data).isSome then .isStatement
  else if (renderRegexp data).isSome then .render
  else .fallback

/-- One entry of a dispatch table: rule label, pattern test, and whether the
privilege flag gates the arm. -/
structure RuleEntry where
  rule : Rule
  test : List Char → Bool
  privileged : Bool := false

/-- The dispatch chain as an explicit ordered table (the design document's
"ordered list of (pattern, handler) pairs"): section 4.1's rules 1 to 17 in
order, with the create-var and remove-var entries carrying the source's
privilege gate, followed by the source's custom render rule. -/
def ruleTable : List RuleEntry :=
  [{ rule := .literal, test := fun s => (literalRegexp s).isSome },
   { rule := .undo, test := undoRegexp },
   { rule := .merge, test := fun s => (mergeRegexp s).isSome },
   { rule := .aliasCmd, test := fun s => (aliasRegexp s).isSome },
   { rule := .lookupCmd, test := fun s => (lookupRegexp s).isSome },
   { rule := .forgetIs, test := fun s => (forgetIsRegexp s).isSome },
   { rule := .forget, test := fun s => (forgetRegexp s).isSome },
   { rule := .what, test := whatRegexp },
   { rule := .listVars, test := listVarsRegexp },
   { rule := .listVar, test := fun s => (listVarRegexp s).isSome },
   { rule := .removeVal, test := fun s => (removeValRegexp s).isSome },
   { rule := .addVal, test := fun s => (addValRegexp s).isSome },
   { rule := .createVar, test := fun s => (createVarRegexp s).isSome, privileged := true },
   { rule := .removeVar, test := fun s => (removeVarRegexp s).isSome, privileged := true },
   { rule := .fullInventory, test := fullInventoryRegexp },
   { rule := .inventory, test := inventoryRegexp },
   { rule := .isStatement, test := fun s => (isRegexp s).isSome },
   { rule := .render, test := fun s => (renderRegexp s).isSome }]

/-- First-match-wins evaluation of an ordered dispatch table: the first
entry whose pattern matches (and whose privilege gate, when present, is
satisfied by `op`) names the handling rule; no match means the
implicit-lookup fallback. -/
def tableDispatch (table : List RuleEntry) (op : Bool) (s : List Char) : Rule :=
  match table.find? (fun e => (!e.privileged || op) && e.test s) with
  | some e => e.rule
  | none => .fallback

/-- Section 4.1's canonical priority order exactly as the design document
states it: the grammar patterns of rules 1 to 17 tried top to bottom with no
privilege gating of the matching itself and no render rule; everything else
is rule 18, the implicit-lookup fallback. -/
def spec41Table : List RuleEntry :=
  [{ rule := .literal, test := fun s => (literalRegexp s).isSome },
   { rule := .undo, test := undoRegexp },
   { rule := .merge, test := fun s => (mergeRegexp s).isSome },
   { rule := .aliasCmd, test := fun s => (aliasRegexp s).isSome },
   { rule := .lookupCmd, test := fun s => (lookupRegexp s).isSome },
   { rule := .forgetIs, test := fun s => (forgetIsRegexp s).isSome },
   { rule := .forget, test := fun s => (forgetRegexp s).isSome },
   { rule := .what, test := whatRegexp },
   { rule := .listVars, test := listVarsRegexp },
   { rule := .listVar, test := fun s => (listVarRegexp s).isSome },
   { rule := .removeVal, test := fun s => (removeValRegexp s).isSome },
   { rule := .addVal, test := fun s => (addValRegexp s).isSome },
   { rule := .createVar, test := fun s => (createVarRegexp s).isSome },
   { rule := .removeVar, test := fun s => (removeVarRegexp s).isSome },
   { rule := .fullInventory, test := fullInventoryRegexp },
   { rule := .inventory, test := inventoryRegexp },
   { rule := .isStatement, test := fun s => (isRegexp s).isSome }]

/-- First match over section 4.1's canonical order (privilege plays no role
in matching there). -/
def spec41FirstRule (s : List Char) : Rule :=
  tableDispatch spec41Table true s

/-- The verb texts the capture group `(is|is also|are|<\w+>)` can produce:
a case variant of `is`, `are` or `is also`, or a word in angle brackets. -/
def producibleVerb (v : List Char) : Bool :=
  (v.map foldChar == "is".data) || (v.map foldChar == "are".data) ||
    (v.map foldChar == "is also".data) ||
    ((v.head? == some '<') && (!v.tail.dropLast.isEmpty) &&
      v.tail.dropLast.all isWordChar && (v.tail.getLast? == some '>'))

/-! Helper lemmas about the character-level embedding. -/

theorem charToNat_ofNat {n : Nat} (h : n < 55296) : (Char.ofNat n).toNat = n := by
  unfold Char.ofNat
  rw [dif_pos (Or.inl h)]
  rfl

theorem foldChar_idem (c : Char) : foldChar (foldChar c) = foldChar c := by
  unfold foldChar
  by_cases h : 65 ≤ c.toNat ∧ c.toNat ≤ 90
  · rw [if_pos h]
    have h2 : (Char.ofNat (c.toNat + 32)).toNat = c.toNat + 32 := charToNat_ofNat (by omega)
    rw [if_neg (by rw [h2]; omega)]
  · rw [if_neg h, if_neg h]

theorem toLowerGo_idem (s : String) : toLowerGo (toLowerGo s) = toLowerGo s := by
  simp [toLowerGo, List.map_map, Function.comp_def, foldChar_idem]

theorem kvGet_congr {α : Type} (l : List (String × α)) {k1 k2 : String}
    (h : toLowerGo k1 = toLowerGo k2) : kvGet l k1 = kvGet l k2 := by
  simp [kvGet, h]

theorem kvPut_congr {α : Type} (l : List (String × α)) {k1 k2 : String} (v : α)
    (h : toLowerGo k1 = toLowerGo k2) : kvPut l k1 v = kvPut l k2 v := by
  induction l with
  | nil => simp [kvPut, h]
  | cons hd tl ih => simp [kvPut, h, ih]

theorem kvDelete_congr {α : Type} (l : List (String × α)) {k1 k2 : String}
    (h : toLowerGo k1 = toLowerGo k2) : kvDelete l k1 = kvDelete l k2 := by
  induction l with
  | nil => simp [kvDelete]
  | cons hd tl ih => simp [kvDelete, h, ih]

theorem stripCI_append_of_take_none (pat pre W : List Char)
    (h : stripCI (pat.take pre.length) pre = none) : stripCI pat (pre ++ W) = none := by
  induction pat generalizing pre with
  | nil => simp [List.take, stripCI] at h
  | cons p ps ih =>
    cases pre with
    | nil => simp [List.take, stripCI] at h
    | cons c cs =>
      simp only [List.length_cons, List.take_succ_cons, stripCI, List.cons_append] at h ⊢
      by_cases hc : foldChar c = p
      · rw [if_pos hc] at h ⊢
        exact ih cs h
      · rw [if_neg hc]

theorem stripCI_append_of_some (pat pre W r : List Char)
    (h : stripCI pat pre = some r) : stripCI pat (pre ++ W) = some (r ++ W) := by
  induction pat generalizing pre with
  | nil =>
    simp only [stripCI, Option.some.injEq] at h
    simp [stripCI, h]
  | cons p ps ih =>
    cases pre with
    | nil => simp [stripCI] at h
    | cons c cs =>
      simp only [stripCI, List.cons_append] at h ⊢
      by_cases hc : foldChar c = p
      · rw [if_pos hc] at h ⊢
        exact ih cs h
      · rw [if_neg hc] at h
        exact absurd h (by simp)

theorem stripCI_head_ne {p1 p2 : Char} {ps1 ps2 s r : List Char} (hne : p2 ≠ p1)
    (h : stripCI (p1 :: ps1) s = some r) : stripCI (p2 :: ps2) s = none := by
  cases s with
  | nil => simp [stripCI] at h
  | cons c cs =>
    simp only [stripCI] at h ⊢
    by_cases hc : foldChar c = p1
    · have hcp : foldChar c ≠ p2 := by
        intro he
        rw [hc] at he
        exact hne he.symm
      rw [if_neg hcp]
    · rw [if_neg hc] at h
      exact absurd h (by simp)

theorem isWordChar_ne_space {c : Char} (h : isWordChar c = true) : c ≠ ' ' := by
  intro he
  rw [he] at h
  exact absurd h (by decide)

theorem isWordChar_ne_nl {c : Char} (h : isWordChar c = true) : c ≠ '\n' := by
  intro he
  rw [he] at h
  exact absurd h (by decide)

theorem isWordChar_ne_lt {c : Char} (h : isWordChar c = true) : c ≠ '<' := by
  intro he
  rw [he] at h
  exact absurd h (by decide)

theorem tryVerb_words {w : List Char} (hw : ∀ c ∈ w, isWordChar c = true) :
    tryVerb w = none := by
  rcases w with _ | ⟨c1, _ | ⟨c2, _ | ⟨c3, _ | ⟨c4, r⟩⟩⟩⟩
  · rfl
  · have h1 := isWordChar_ne_lt (hw c1 (by simp))
    simp [tryVerb, tryIs, tryIsAlso, tryAre, tryBracketVerb, h1]
  · have h1 := isWordChar_ne_lt (hw c1 (by simp))
    simp [tryVerb, tryIs, tryIsAlso, tryAre, tryBracketVerb, h1]
  · have h1 := isWordChar_ne_lt (hw c1 (by simp))
    have h3 := isWordChar_ne_space (hw c3 (by simp))
    simp [tryVerb, tryIs, tryIsAlso, tryAre, tryBracketVerb, h1, h3]
  · have h1 := isWordChar_ne_lt (hw c1 (by simp))
    have h3 := isWordChar_ne_space (hw c3 (by simp))
    have h4 := isWordChar_ne_space (hw c4 (by simp))
    simp [tryVerb, tryIs, tryIsAlso, tryAre, tryBracketVerb, h1, h3, h4]

theorem tryVerb_head {c : Char} {r : List Char} (h1 : foldChar c ≠ 'i')
    (h2 : foldChar c ≠ 'a') (h3 : c ≠ '<') : tryVerb (c :: r) = none := by
  rcases r with _ | ⟨x, _ | ⟨y, _ | ⟨z, t⟩⟩⟩
  · simp [tryVerb, tryIs, tryIsAlso, tryAre, tryBracketVerb, h3]
  · simp [tryVerb, tryIs, tryIsAlso, tryAre, tryBracketVerb, h3]
  · simp [tryVerb, tryIs, tryIsAlso, tryAre, tryBracketVerb, h1, h3]
  · simp [tryVerb, tryIs, tryIsAlso, tryAre, tryBracketVerb, h1, h2, h3]

theorem isSplitAux_words (acc : List Char) {w : List Char}
    (hw : ∀ c ∈ w, isWordChar c = true) : isSplitAux acc w = none := by
  induction w generalizing acc with
  | nil => rfl
  | cons c rest ih =>
    have hnl := isWordChar_ne_nl (hw c (by simp))
    have hsp := isWordChar_ne_space (hw c (by simp))
    simp only [isSplitAux]
    rw [if_neg hnl]
    have hin : (if c = ' ' ∧ acc ≠ [] then tryVerb rest else none) = none :=
      if_neg fun hcon => hsp hcon.1
    rw [hin]
    exact ih (c :: acc) fun d hd => hw d (List.mem_cons_of_mem _ hd)

theorem isRegexp_createVar {W : List Char} (hw : ∀ c ∈ W, isWordChar c = true) :
    isRegexp ("create var ".data ++ W) = none := by
  have h1 : tryVerb ('v' :: 'a' :: 'r' :: ' ' :: W) = none :=
    tryVerb_head (by decide) (by decide) (by decide)
  have h2 : tryVerb W = none := tryVerb_words hw
  have h3 : isSplitAux [' ', 'r', 'a', 'v', ' ', 'e', 't', 'a', 'e', 'r', 'c'] W = none :=
    isSplitAux_words _ hw
  have hd : "create var ".data = ['c', 'r', 'e', 'a', 't', 'e', ' ', 'v', 'a', 'r', ' '] := rfl
  rw [isRegexp, hd]
  simp only [List.cons_append, List.nil_append]
  simp [isSplitAux, h1, h2, h3]

theorem isRegexp_removeVar {W : List Char} (hw : ∀ c ∈ W, isWordChar c = true) :
    isRegexp ("remove var ".data ++ W) = none := by
  have h1 : tryVerb ('v' :: 'a' :: 'r' :: ' ' :: W) = none :=
    tryVerb_head (by decide) (by decide) (by decide)
  have h2 : tryVerb W = none := tryVerb_words hw
  have h3 : isSplitAux [' ', 'r', 'a', 'v', ' ', 'e', 'v', 'o', 'm', 'e', 'r'] W = none :=
    isSplitAux_words _ hw
  have hd : "remove var ".data = ['r', 'e', 'm', 'o', 'v', 'e', ' ', 'v', 'a', 'r', ' '] := rfl
  rw [isRegexp, hd]
  simp only [List.cons_append, List.nil_append]
  simp [isSplitAux, h1, h2, h3]

theorem takeWhile_append_all {p : Char → Bool} {xs : List Char} (l : List Char)
    (h : ∀ c ∈ xs, p c = true) : (xs ++ l).takeWhile p = xs ++ l.takeWhile p := by
  induction xs with
  | nil => simp
  | cons c t ih =>
    simp only [List.cons_append, List.takeWhile_cons, h c (by simp)]
    simp [ih fun d hd => h d (List.mem_cons_of_mem _ hd)]

theorem dropWhile_append_all {p : Char → Bool} {xs : List Char} (l : List Char)
    (h : ∀ c ∈ xs, p c = true) : (xs ++ l).dropWhile p = l.dropWhile p := by
  induction xs with
  | nil => simp
  | cons c t ih =>
    simp only [List.cons_append, List.dropWhile_cons, h c (by simp)]
    simp [ih fun d hd => h d (List.mem_cons_of_mem _ hd)]

theorem takeWhile_all {p : Char → Bool} {xs : List Char}
    (h : ∀ c ∈ xs, p c = true) : xs.takeWhile p = xs := by
  induction xs with
  | nil => rfl
  | cons c t ih =>
    simp only [List.takeWhile_cons, h c (by simp)]
    simp [ih fun d hd => h d (List.mem_cons_of_mem _ hd)]

theorem wordOnly_eval {name : List Char} (hn : name ≠ [])
    (hw : ∀ c ∈ name, isWordChar c = true) : wordOnly name = some name := by
  simp [wordOnly, hn, List.all_eq_true.mpr hw]

theorem wordThenRest_eval {name text : List Char} (hn : name ≠ [])
    (hw : ∀ c ∈ name, isWordChar c = true) (ht : noNL text = true) :
    wordThenRest (name ++ ' ' :: text) = some (name, text) := by
  have hspw : isWordChar ' ' = false := by decide
  unfold wordThenRest
  rw [takeWhile_append_all _ hw, dropWhile_append_all _ hw]
  simp [List.takeWhile_cons, List.dropWhile_cons, hspw, hn, ht]

theorem expandGo_no_dollar {f : List Char → Nat → List Char × Nat} {text : List Char}
    (h : ∀ c ∈ text, c ≠ '$') (cnt : Nat) : expandGo f text cnt = (text, cnt) := by
  induction text generalizing cnt with
  | nil => rw [expandGo.eq_def]
  | cons c rest ih =>
    rw [expandGo.eq_def]
    simp only []
    rw [if_neg (h c (by simp))]
    simp [ih fun d hd => h d (List.mem_cons_of_mem _ hd)]

theorem getShellName_alphanum {d : Char} {rest : List Char} (hd : isAlphaNum d = true)
    (hds : isShellSpecialVar d = false) (hr : ∀ c ∈ rest, isAlphaNum c = true) :
    getShellName (d :: rest) = (d :: rest, rest.length + 1) := by
  have hbrace : d ≠ '\x7b' := by
    intro he
    rw [he] at hd
    exact absurd hd (by decide)
  rw [getShellName, if_neg hbrace, if_neg (by simp [hds])]
  have htw : (d :: rest).takeWhile isAlphaNum = d :: rest :=
    takeWhile_all fun c hc => by
      rcases List.mem_cons.mp hc with h | h
      · rw [h]; exact hd
      · exact hr c h
  simp [htw]

theorem removeFirstMatch_none (verb text : String) {rs : List bucketFactResponse}
    (h : ∀ r ∈ rs, ¬(r.Text = text ∧ r.Verb = verb)) :
    removeFirstMatch verb text rs = (false, rs) := by
  induction rs with
  | nil => rfl
  | cons r rest ih =>
    simp only [removeFirstMatch, if_neg (h r (by simp))]
    simp [ih fun d hd => h d (List.mem_cons_of_mem _ hd)]

theorem removeFirstMatch_found (verb text : String) {rs : List bucketFactResponse}
    (k : Nat) (r : bucketFactResponse) (hk : rs.get? k = some r)
    (ht : r.Text = text) (hv : r.Verb = verb)
    (hbefore : ∀ j rj, j < k → rs.get? j = some rj → ¬(rj.Text = text ∧ rj.Verb = verb)) :
    removeFirstMatch verb text rs = (true, rs.take k ++ rs.drop (k + 1)) := by
  induction rs generalizing k with
  | nil => simp at hk
  | cons r0 rest ih =>
    cases k with
    | zero =>
      simp only [List.get?] at hk
      cases hk
      simp [removeFirstMatch, ht, hv]
    | succ k' =>
      have h0 : ¬(r0.Text = text ∧ r0.Verb = verb) :=
        hbefore 0 r0 (Nat.succ_pos k') rfl
      simp only [removeFirstMatch, if_neg h0]
      have hrec := ih k' hk fun j rj hj hget =>
        hbefore (j + 1) rj (Nat.succ_lt_succ hj) hget
      simp [hrec]

theorem literalRegexp_none {s : List Char} (h : stripCI "literal".data s = none) :
    literalRegexp s = none := by
  simp [literalRegexp, h]

theorem undoRegexp_false {s : List Char} (h : stripCI "undo".data s = none) :
    undoRegexp s = false := by
  simp [undoRegexp, h]

theorem mergeRegexp_none {s : List Char} (h : stripCI "merge ".data s = none) :
    mergeRegexp s = none := by
  simp [mergeRegexp, h]

theorem aliasRegexp_none {s : List Char} (h : stripCI "alias ".data s = none) :
    aliasRegexp s = none := by
  simp [aliasRegexp, h]

theorem lookupRegexp_none {s : List Char} (h : stripCI "lookup ".data s = none) :
    lookupRegexp s = none := by
  simp [lookupRegexp, h]

theorem forgetIsRegexp_none {s : List Char} (h : stripCI "forget ".data s = none) :
    forgetIsRegexp s = none := by
  simp [forgetIsRegexp, h]

theorem forgetRegexp_none {s : List Char} (h : stripCI "forget ".data s = none) :
    forgetRegexp s = none := by
  simp [forgetRegexp, h]

theorem whatRegexp_false {s : List Char} (h : stripCI "what was that".data s = none) :
    whatRegexp s = false := by
  simp [whatRegexp, h]

theorem listVarsRegexp_false {s : List Char} (h : stripCI "list vars".data s = none) :
    listVarsRegexp s = false := by
  simp [listVarsRegexp, h]

theorem listVarRegexp_none {s : List Char} (h : stripCI "list var ".data s = none) :
    listVarRegexp s = none := by
  simp [listVarRegexp, h]

theorem removeValRegexp_none {s : List Char} (h : stripCI "remove value ".data s = none) :
    removeValRegexp s = none := by
  simp [removeValRegexp, h]

theorem addValRegexp_none {s : List Char} (h : stripCI "add value ".data s = none) :
    addValRegexp s = none := by
  simp [addValRegexp, h]

theorem fullInventoryRegexp_false {s : List Char}
    (h1 : stripCI "detailed inventory".data s = none)
    (h2 : stripCI "list item details".data s = none) : fullInventoryRegexp s = false := by
  simp [fullInventoryRegexp, h1, h2]

theorem inventoryRegexp_false {s : List Char} (h1 : stripCI "inventory".data s = none)
    (h2 : stripCI "list items".data s = none) : inventoryRegexp s = false := by
  simp [inventoryRegexp, h1, h2]

theorem renderRegexp_none {s : List Char} (h : stripCI "render ".data s = none) :
    renderRegexp s = none := by
  simp [renderRegexp, h]

theorem stripCI_none_of_head_ne (pat1 pat2 s r : List Char)
    (h : stripCI pat1 s = some r) (h1 : pat1 ≠ []) (h2 : pat2 ≠ [])
    (hne : pat1.head? ≠ pat2.head?) : stripCI pat2 s = none := by
  cases pat1 with
  | nil => exact absurd rfl h1
  | cons p1 ps1 =>
    cases pat2 with
    | nil => exact absurd rfl h2
    | cons p2 ps2 =>
      refine stripCI_head_ne ?_ h
      intro he
      rw [he] at hne
      exact hne rfl

theorem renderTemplate_single (st : Store) (rng : Nat → Nat) {name : List Char}
    (hg : getShellName name = (name, name.length)) (hne : name ≠ []) :
    renderTemplate st rng ('$' :: name) = (renderMapping st rng name 0).1 := by
  cases name with
  | nil => exact absurd rfl hne
  | cons d r =>
    rw [renderTemplate, expandGo.eq_def]
    simp only [if_pos rfl]
    rw [hg]
    simp [List.drop_length, expandGo.eq_def]

/-! Claim theorems. -/

/-- C2, counterexample: the claim asserts that a non-privileged
`create var <name>` / `remove var <name>` produces a refusal reply (some
reply, not silence).  At the concrete input `create var foo` (and
`remove var foo`) from a non-privileged requester, the callback emits NO
reply at all: the privileged arms are skipped during matching and the
message falls through to the silent fallback.  The store is unchanged. -/
theorem c2_counterexample :
    mentionCallback ⟨"create var foo", "alice", false, true, "#chan"⟩ (fun _ => 0) {} =
      ({}, []) ∧
    mentionCallback ⟨"remove var foo", "alice", false, true, "#chan"⟩ (fun _ => 0) {} =
      ({}, []) :=
  ⟨rfl, rfl⟩

/-- C2, amended: for every requester with `OP = false`, the commands
`create var <name>` and `remove var <name>` (for any `\w+` name) apply no
store mutation and emit NO reply — the `bm.OP &&` guard makes the two
privileged patterns unmatchable, no other pattern matches these texts, and
the implicit-lookup fallback is silent. -/
theorem c2_nonprivileged_silent :
    ∀ (name : List Char) (who tgt : String) (pb : Bool) (rng : Nat → Nat) (st : Store),
    name ≠ [] → (∀ c ∈ name, isWordChar c = true) →
    mentionCallback ⟨String.mk ("create var ".data ++ name), who, false, pb, tgt⟩ rng st =
      (st, []) ∧
    mentionCallback ⟨String.mk ("remove var ".data ++ name), who, false, pb, tgt⟩ rng st =
      (st, []) := by
  intro name who tgt pb rng st hn hw
  constructor
  · have e1 : literalRegexp ("create var ".data ++ name) = none :=
      literalRegexp_none (stripCI_append_of_take_none _ _ _ (by decide))
    have e2 : undoRegexp ("create var ".data ++ name) = false :=
      undoRegexp_false (stripCI_append_of_take_none _ _ _ (by decide))
    have e3 : mergeRegexp ("create var ".data ++ name) = none :=
      mergeRegexp_none (stripCI_append_of_take_none _ _ _ (by decide))
    have e4 : aliasRegexp ("create var ".data ++ name) = none :=
      aliasRegexp_none (stripCI_append_of_take_none _ _ _ (by decide))
    have e5 : lookupRegexp ("create var ".data ++ name) = none :=
      lookupRegexp_none (stripCI_append_of_take_none _ _ _ (by decide))
    have e6 : forgetIsRegexp ("create var ".data ++ name) = none :=
      forgetIsRegexp_none (stripCI_append_of_take_none _ _ _ (by decide))
    have e7 : forgetRegexp ("create var ".data ++ name) = none :=
      forgetRegexp_none (stripCI_append_of_take_none _ _ _ (by decide))
    have e8 : whatRegexp ("create var ".data ++ name) = false :=
      whatRegexp_false (stripCI_append_of_take_none _ _ _ (by decide))
    have e9 : listVarsRegexp ("create var ".data ++ name) = false :=
      listVarsRegexp_false (stripCI_append_of_take_none _ _ _ (by decide))
    have e10 : listVarRegexp ("create var ".data ++ name) = none :=
      listVarRegexp_none (stripCI_append_of_take_none _ _ _ (by decide))
    have e11 : removeValRegexp ("create var ".data ++ name) = none :=
      removeValRegexp_none (stripCI_append_of_take_none _ _ _ (by decide))
    have e12 : addValRegexp ("create var ".data ++ name) = none :=
      addValRegexp_none (stripCI_append_of_take_none _ _ _ (by decide))
    have e13 : fullInventoryRegexp ("create var ".data ++ name) = false :=
      fullInventoryRegexp_false (stripCI_append_of_take_none _ _ _ (by decide))
        (stripCI_append_of_take_none _ _ _ (by decide))
    have e14 : inventoryRegexp ("create var ".data ++ name) = false :=
      inventoryRegexp_false (stripCI_append_of_take_none _ _ _ (by decide))
        (stripCI_append_of_take_none _ _ _ (by decide))
    have e15 : isRegexp ("create var ".data ++ name) = none := isRegexp_createVar hw
    have e16 : renderRegexp ("create var ".data ++ name) = none :=
      renderRegexp_none (stripCI_append_of_take_none _ _ _ (by decide))
    simp only [mentionCallback, e1, e2, e3, e4, e5, e6, e7, e8, e9, e10, e11, e12, e13,
      e14, e15, e16, Bool.false_eq_true, false_and, if_false]
  · have e1 : literalRegexp ("remove var ".data ++ name) = none :=
      literalRegexp_none (stripCI_append_of_take_none _ _ _ (by decide))
    have e2 : undoRegexp ("remove var ".data ++ name) = false :=
      undoRegexp_false (stripCI_append_of_take_none _ _ _ (by decide))
    have e3 : mergeRegexp ("remove var ".data ++ name) = none :=
      mergeRegexp_none (stripCI_append_of_take_none _ _ _ (by decide))
    have e4 : aliasRegexp ("remove var ".data ++ name) = none :=
      aliasRegexp_none (stripCI_append_of_take_none _ _ _ (by decide))
    have e5 : lookupRegexp ("remove var ".data ++ name) = none :=
      lookupRegexp_none (stripCI_append_of_take_none _ _ _ (by decide))
    have e6 : forgetIsRegexp ("remove var ".data ++ name) = none :=
      forgetIsRegexp_none (stripCI_append_of_take_none _ _ _ (by decide))
    have e7 : forgetRegexp ("remove var ".data ++ name) = none :=
      forgetRegexp_none (stripCI_append_of_take_none _ _ _ (by decide))
    have e8 : whatRegexp ("remove var ".data ++ name) = false :=
      whatRegexp_false (stripCI_append_of_take_none _ _ _ (by decide))
    have e9 : listVarsRegexp ("remove var ".data ++ name) = false :=
      listVarsRegexp_false (stripCI_append_of_take_none _ _ _ (by decide))
    have e10 : listVarRegexp ("remove var ".data ++ name) = none :=
      listVarRegexp_none (stripCI_append_of_take_none _ _ _ (by decide))
    have e11 : removeValRegexp ("remove var ".data ++ name) = none :=
      removeValRegexp_none (stripCI_append_of_take_none _ _ _ (by decide))
    have e12 : addValRegexp ("remove var ".data ++ name) = none :=
      addValRegexp_none (stripCI_append_of_take_none _ _ _ (by decide))
    have e13 : fullInventoryRegexp ("remove var ".data ++ name) = false :=
      fullInventoryRegexp_false (stripCI_append_of_take_none _ _ _ (by decide))
        (stripCI_append_of_take_none _ _ _ (by decide))
    have e14 : inventoryRegexp ("remove var ".data ++ name) = false :=
      inventoryRegexp_false (stripCI_append_of_take_none _ _ _ (by decide))
        (stripCI_append_of_take_none _ _ _ (by decide))
    have e15 : isRegexp ("remove var ".data ++ name) = none := isRegexp_removeVar hw
    have e16 : renderRegexp ("remove var ".data ++ name) = none :=
      renderRegexp_none (stripCI_append_of_take_none _ _ _ (by decide))
    simp only [mentionCallback, e1, e2, e3, e4, e5, e6, e7, e8, e9, e10, e11, e12, e13,
      e14, e15, e16, Bool.false_eq_true, false_and, if_false]

/-- C2, witness for the amended theorem at the concrete name `foo`. -/
theorem c2_nonprivileged_silent_witness :
    mentionCallback ⟨String.mk ("create var ".data ++ "foo".data), "alice", false, true,
        "#chan"⟩ (fun _ => 0) {} = ({}, []) ∧
    mentionCallback ⟨String.mk ("remove var ".data ++ "foo".data), "alice", false, true,
        "#chan"⟩ (fun _ => 0) {} = ({}, []) :=
  c2_nonprivileged_silent "foo".data "alice" "#chan" true (fun _ => 0) {}
    (by decide) (by decide)

theorem tableDispatch_cons_true {e : RuleEntry} {rest : List RuleEntry} {op : Bool}
    {s : List Char} (h : ((!e.privileged || op) && e.test s) = true) :
    tableDispatch (e :: rest) op s = e.rule := by
  simp [tableDispatch, List.find?, h]

theorem tableDispatch_cons_false {e : RuleEntry} {rest : List RuleEntry} {op : Bool}
    {s : List Char} (h : ((!e.privileged || op) && e.test s) = false) :
    tableDispatch (e :: rest) op s = tableDispatch rest op s := by
  simp [tableDispatch, List.find?, h]

/-- C1, counterexample: the claim says the executed command is always the
first matching pattern in section 4.1's canonical order.  Two concrete
inputs refute this: a non-privileged `create var foo` matches rule 13 first
in the canonical order, yet the chain executes the fallback (the privileged
arm is skipped for non-privileged requesters, not refused); and
`render $x` matches no section 4.1 pattern (so the canonical order assigns
it to rule 18, the implicit lookup), yet the chain executes the custom
render rule. -/
theorem c1_counterexample :
    classify "create var foo".data false = Rule.fallback ∧
    spec41FirstRule "create var foo".data = Rule.createVar ∧
    Rule.fallback ≠ Rule.createVar ∧
    classify "render $x".data true = Rule.render ∧
    spec41FirstRule "render $x".data = Rule.fallback ∧
    Rule.render ≠ Rule.fallback :=
  ⟨by decide, by decide, by decide, by decide, by decide, by decide⟩

/-- C1, amended: dispatch is first-match-wins over the explicit ordered
table `ruleTable`, which is section 4.1's order with two changes the code
forces: rules 13 and 14 participate in matching only for privileged
requesters, and the custom render rule sits between rule 17 and the
fallback.  In particular (second conjunct), any input matching the
forget-response pattern (rule 6) is handled by that rule, never by the bare
forget rule (7) or the generic statement rule (17). -/
theorem c1_dispatch_amended : ∀ (data : List Char) (op : Bool),
    classify data op = tableDispatch ruleTable op data ∧
    (∀ m, forgetIsRegexp data = some m → classify data op = Rule.forgetIs) := by
  intro data op
  constructor
  · rw [ruleTable]
    by_cases h1 : (literalRegexp data).isSome
    · rw [classify, if_pos h1, tableDispatch_cons_true (by simp [h1])]
    rw [classify, if_neg h1, tableDispatch_cons_false (by simp [h1])]
    by_cases h2 : undoRegexp data
    · rw [if_pos h2, tableDispatch_cons_true (by simp [h2])]
    rw [if_neg h2, tableDispatch_cons_false (by simp [h2])]
    by_cases h3 : (mergeRegexp data).isSome
    · rw [if_pos h3, tableDispatch_cons_true (by simp [h3])]
    rw [if_neg h3, tableDispatch_cons_false (by simp [h3])]
    by_cases h4 : (aliasRegexp data).isSome
    · rw [if_pos h4, tableDispatch_cons_true (by simp [h4])]
    rw [if_neg h4, tableDispatch_cons_false (by simp [h4])]
    by_cases h5 : (lookupRegexp data).isSome
    · rw [if_pos h5, tableDispatch_cons_true (by simp [h5])]
    rw [if_neg h5, tableDispatch_cons_false (by simp [h5])]
    by_cases h6 : (forgetIsRegexp data).isSome
    · rw [if_pos h6, tableDispatch_cons_true (by simp [h6])]
    rw [if_neg h6, tableDispatch_cons_false (by simp [h6])]
    by_cases h7 : (forgetRegexp data).isSome
    · rw [if_pos h7, tableDispatch_cons_true (by simp [h7])]
    rw [if_neg h7, tableDispatch_cons_false (by simp [h7])]
    by_cases h8 : whatRegexp data
    · rw [if_pos h8, tableDispatch_cons_true (by simp [h8])]
    rw [if_neg h8, tableDispatch_cons_false (by simp [h8])]
    by_cases h9 : listVarsRegexp data
    · rw [if_pos h9, tableDispatch_cons_true (by simp [h9])]
    rw [if_neg h9, tableDispatch_cons_false (by simp [h9])]
    by_cases h10 : (listVarRegexp data).isSome
    · rw [if_pos h10, tableDispatch_cons_true (by simp [h10])]
    rw [if_neg h10, tableDispatch_cons_false (by simp [h10])]
    by_cases h11 : (removeValRegexp data).isSome
    · rw [if_pos h11, tableDispatch_cons_true (by simp [h11])]
    rw [if_neg h11, tableDispatch_cons_false (by simp [h11])]
    by_cases h12 : (addValRegexp data).isSome
    · rw [if_pos h12, tableDispatch_cons_true (by simp [h12])]
    rw [if_neg h12, tableDispatch_cons_false (by simp [h12])]
    by_cases h13 : op ∧ (createVarRegexp data).isSome
    · rw [if_pos h13, tableDispatch_cons_true (by simp [h13.1, h13.2])]
    rw [if_neg h13, tableDispatch_cons_false (by cases hop : op <;> simp_all)]
    by_cases h14 : op ∧ (removeVarRegexp data).isSome
    · rw [if_pos h14, tableDispatch_cons_true (by simp [h14.1, h14.2])]
    rw [if_neg h14, tableDispatch_cons_false (by cases hop : op <;> simp_all)]
    by_cases h15 : fullInventoryRegexp data
    · rw [if_pos h15, tableDispatch_cons_true (by simp [h15])]
    rw [if_neg h15, tableDispatch_cons_false (by simp [h15])]
    by_cases h16 : inventoryRegexp data
    · rw [if_pos h16, tableDispatch_cons_true (by simp [h16])]
    rw [if_neg h16, tableDispatch_cons_false (by simp [h16])]
    by_cases h17 : (isRegexp data).isSome
    · rw [if_pos h17, tableDispatch_cons_true (by simp [h17])]
    rw [if_neg h17, tableDispatch_cons_false (by simp [h17])]
    by_cases h18 : (renderRegexp data).isSome
    · rw [if_pos h18, tableDispatch_cons_true (by simp [h18])]
    rw [if_neg h18, tableDispatch_cons_false (by simp [h18])]
    rfl
  · intro m hm
    obtain ⟨t, ht⟩ : ∃ t, stripCI "forget ".data data = some t := by
      cases hs : stripCI "forget ".data data with
      | none => rw [forgetIsRegexp, hs] at hm; simp at hm
      | some t => exact ⟨t, rfl⟩
    have r1 : literalRegexp data = none :=
      literalRegexp_none (stripCI_none_of_head_ne _ _ _ _ ht (by decide) (by decide)
        (by decide))
    have r2 : undoRegexp data = false :=
      undoRegexp_false (stripCI_none_of_head_ne _ _ _ _ ht (by decide) (by decide)
        (by decide))
    have r3 : mergeRegexp data = none :=
      mergeRegexp_none (stripCI_none_of_head_ne _ _ _ _ ht (by decide) (by decide)
        (by decide))
    have r4 : aliasRegexp data = none :=
      aliasRegexp_none (stripCI_none_of_head_ne _ _ _ _ ht (by decide) (by decide)
        (by decide))
    have r5 : lookupRegexp data = none :=
      lookupRegexp_none (stripCI_none_of_head_ne _ _ _ _ ht (by decide) (by decide)
        (by decide))
    rw [classify, if_neg (by simp [r1]), if_neg (by simp [r2]), if_neg (by simp [r3]),
      if_neg (by simp [r4]), if_neg (by simp [r5]), if_pos (by simp [hm])]

/-- C1, witness for the amended theorem: `forget a is b` matches the
forget-response pattern and is classified to that rule. -/
theorem c1_dispatch_amended_witness :
    classify "forget a is b".data true = Rule.forgetIs :=
  (c1_dispatch_amended "forget a is b".data true).2 (['a'], (['i', 's'], ['b']))
    (by decide)

/-- C3, code bug: the forget-response branch writes the fetched fact back
unconditionally, so removing the last response of `foo` STORES an entry
with an empty response list instead of deleting the key, and a forget for
an absent key `ghost` CREATES a zero-response entry while replying that
nothing was found — both contradicting the documented invariant that a key
with zero responses must be deleted, not stored empty. -/
theorem c3_empty_entry_stored :
    mentionCallback ⟨"forget foo is bar", "bob", false, true, "#chan"⟩ (fun _ => 0)
        { facts := [("foo", { Responses := [⟨"bar", "alice", "is"⟩] })] } =
      ({ facts := [("foo", { Responses := [] })] },
        [Reply.reply "Ok bob, forgot foo is bar"]) ∧
    mentionCallback ⟨"forget ghost is here", "bob", false, true, "#chan"⟩ (fun _ => 0)
        {} =
      ({ facts := [("ghost", { Responses := [] })] },
        [Reply.reply "Ok bob, couldn't find ghost is here"]) ∧
    kvGet ({ facts := [("foo", { Responses := [] })] } : Store).facts "foo" =
      some { Responses := [] } :=
  ⟨rfl, rfl, rfl⟩

/-- C5, code bug: the undo branch of the source is an empty stub, so `undo`
never changes the store and never emits any reply — neither the snapshot
restoration nor the distinct "nothing to undo" reply of the claim exists.
The last two conjuncts exhibit the divergence concretely: after `foo is
bar` mutates the (initially empty) store, `undo` leaves the mutated store
in place rather than restoring the empty pre-mutation store. -/
theorem c5_undo_is_stub :
    (∀ (who tgt : String) (op pb : Bool) (rng : Nat → Nat) (st : Store),
      mentionCallback ⟨"undo", who, op, pb, tgt⟩ rng st = (st, [])) ∧
    (mentionCallback ⟨"foo is bar", "alice", false, true, "#chan"⟩ (fun _ => 0) {}).1 ≠
      ({} : Store) ∧
    mentionCallback ⟨"undo", "alice", false, true, "#chan"⟩ (fun _ => 0)
        (mentionCallback ⟨"foo is bar", "alice", false, true, "#chan"⟩ (fun _ => 0) {}).1 =
      ((mentionCallback ⟨"foo is bar", "alice", false, true, "#chan"⟩ (fun _ => 0) {}).1,
        []) :=
  ⟨fun _ _ _ _ _ _ => rfl, by decide, rfl⟩

/-- C6, code bug: the list-var branch declares `first` but never sets it,
so the `", "` separator is written before every value including the first;
the reply for a one-value variable is `... is , red` and for a two-value
variable `... is , red, blue`, not the claimed separator-only-between-values
join. -/
theorem c6_leading_separator :
    mentionCallback ⟨"list var color", "bob", false, true, "#chan"⟩ (fun _ => 0)
        { vars := [("color", { Values := [⟨"red", "a"⟩], Creator := "adm" })] } =
      ({ vars := [("color", { Values := [⟨"red", "a"⟩], Creator := "adm" })] },
        [Reply.reply "Ok bob, color is , red"]) ∧
    mentionCallback ⟨"list var color", "bob", false, true, "#chan"⟩ (fun _ => 0)
        { vars := [("color", ⟨[⟨"red", "a"⟩, ⟨"blue", "b"⟩], "adm"⟩)] } =
      ({ vars := [("color", ⟨[⟨"red", "a"⟩, ⟨"blue", "b"⟩], "adm"⟩)] },
        [Reply.reply "Ok bob, color is , red, blue"]) :=
  ⟨rfl, rfl⟩

/-- C4: store access is case-insensitive at every entry point.  The
storage collaborator (modelled from the design document's section 6 as
keyed by case-insensitive string) folds every key, so reading, writing and
deleting under a key equals doing so under its lower-cased form (first
conjunct); rendering `$X` resolves exactly the variable `$x` resolves
(second conjunct — this entry point passes the reference name through
without its own `strings.ToLower` and relies wholly on the storage
contract); and a statement under `FOO` mutates the same fact a statement
under `foo` mutates (third conjunct). -/
theorem c4_case_insensitive_keys :
    (∀ (st : Store) (k : String),
      kvGet st.facts (toLowerGo k) = kvGet st.facts k ∧
      kvGet st.vars (toLowerGo k) = kvGet st.vars k ∧
      (∀ f : bucketFact, kvPut st.facts (toLowerGo k) f = kvPut st.facts k f) ∧
      (∀ v : bucketVariable, kvPut st.vars (toLowerGo k) v = kvPut st.vars k v) ∧
      kvDelete st.vars (toLowerGo k) = kvDelete st.vars k) ∧
    (∀ (st : Store) (who tgt : String) (op pb : Bool) (rng : Nat → Nat),
      mentionCallback ⟨"render $X", who, op, pb, tgt⟩ rng st =
        mentionCallback ⟨"render $x", who, op, pb, tgt⟩ rng st) ∧
    (∀ (st : Store) (who tgt : String) (op pb : Bool) (rng : Nat → Nat),
      (mentionCallback ⟨"FOO is bar", who, op, pb, tgt⟩ rng st).1 =
        (mentionCallback ⟨"foo is bar", who, op, pb, tgt⟩ rng st).1) := by
  refine ⟨fun st k => ?_, fun st who tgt op pb rng => ?_, fun st who tgt op pb rng => ?_⟩
  · exact ⟨kvGet_congr _ (toLowerGo_idem k), kvGet_congr _ (toLowerGo_idem k),
      fun f => kvPut_congr _ f (toLowerGo_idem k),
      fun v => kvPut_congr _ v (toLowerGo_idem k),
      kvDelete_congr _ (toLowerGo_idem k)⟩
  · have m1 : literalRegexp "render $X".data = none := by decide
    have m2 : undoRegexp "render $X".data = false := by decide
    have m3 : mergeRegexp "render $X".data = none := by decide
    have m4 : aliasRegexp "render $X".data = none := by decide
    have m5 : lookupRegexp "render $X".data = none := by decide
    have m6 : forgetIsRegexp "render $X".data = none := by decide
    have m7 : forgetRegexp "render $X".data = none := by decide
    have m8 : whatRegexp "render $X".data = false := by decide
    have m9 : listVarsRegexp "render $X".data = false := by decide
    have m10 : listVarRegexp "render $X".data = none := by decide
    have m11 : removeValRegexp "render $X".data = none := by decide
    have m12 : addValRegexp "render $X".data = none := by decide
    have m13 : createVarRegexp "render $X".data = none := by decide
    have m14 : removeVarRegexp "render $X".data = none := by decide
    have m15 : fullInventoryRegexp "render $X".data = false := by decide
    have m16 : inventoryRegexp "render $X".data = false := by decide
    have m17 : isRegexp "render $X".data = none := by decide
    have m18 : renderRegexp "render $X".data = some ['$', 'X'] := by decide
    have n1 : literalRegexp "render $x".data = none := by decide
    have n2 : undoRegexp "render $x".data = false := by decide
    have n3 : mergeRegexp "render $x".data = none := by decide
    have n4 : aliasRegexp "render $x".data = none := by decide
    have n5 : lookupRegexp "render $x".data = none := by decide
    have n6 : forgetIsRegexp "render $x".data = none := by decide
    have n7 : forgetRegexp "render $x".data = none := by decide
    have n8 : whatRegexp "render $x".data = false := by decide
    have n9 : listVarsRegexp "render $x".data = false := by decide
    have n10 : listVarRegexp "render $x".data = none := by decide
    have n11 : removeValRegexp "render $x".data = none := by decide
    have n12 : addValRegexp "render $x".data = none := by decide
    have n13 : createVarRegexp "render $x".data = none := by decide
    have n14 : removeVarRegexp "render $x".data = none := by decide
    have n15 : fullInventoryRegexp "render $x".data = false := by decide
    have n16 : inventoryRegexp "render $x".data = false := by decide
    have n17 : isRegexp "render $x".data = none := by decide
    have n18 : renderRegexp "render $x".data = some ['$', 'x'] := by decide
    simp only [mentionCallback, m1, m2, m3, m4, m5, m6, m7, m8, m9, m10, m11, m12, m13,
      m14, m15, m16, m17, m18, n1, n2, n3, n4, n5, n6, n7, n8, n9, n10, n11, n12, n13,
      n14, n15, n16, n17, n18, Bool.false_eq_true, and_false, if_false]
    have hg1 : getShellName ['X'] = (['X'], 1) := by decide
    have hg2 : getShellName ['x'] = (['x'], 1) := by decide
    rw [renderHandler, renderHandler, renderTemplate_single st rng hg1 (by decide),
      renderTemplate_single st rng hg2 (by decide)]
    have hk : kvGet st.vars (String.mk ['X']) = kvGet st.vars (String.mk ['x']) :=
      kvGet_congr _ (by decide)
    simp [renderMapping, hk]
  · have m1 : literalRegexp "FOO is bar".data = none := by decide
    have m2 : undoRegexp "FOO is bar".data = false := by decide
    have m3 : mergeRegexp "FOO is bar".data = none := by decide
    have m4 : aliasRegexp "FOO is bar".data = none := by decide
    have m5 : lookupRegexp "FOO is bar".data = none := by decide
    have m6 : forgetIsRegexp "FOO is bar".data = none := by decide
    have m7 : forgetRegexp "FOO is bar".data = none := by decide
    have m8 : whatRegexp "FOO is bar".data = false := by decide
    have m9 : listVarsRegexp "FOO is bar".data = false := by decide
    have m10 : listVarRegexp "FOO is bar".data = none := by decide
    have m11 : removeValRegexp "FOO is bar".data = none := by decide
    have m12 : addValRegexp "FOO is bar".data = none := by decide
    have m13 : createVarRegexp "FOO is bar".data = none := by decide
    have m14 : removeVarRegexp "FOO is bar".data = none := by decide
    have m15 : fullInventoryRegexp "FOO is bar".data = false := by decide
    have m16 : inventoryRegexp "FOO is bar".data = false := by decide
    have m17 : isRegexp "FOO is bar".data =
        some (['F', 'O', 'O'], (['i', 's'], ['b', 'a', 'r'])) := by decide
    have n1 : literalRegexp "foo is bar".data = none := by decide
    have n2 : undoRegexp "foo is bar".data = false := by decide
    have n3 : mergeRegexp "foo is bar".data = none := by decide
    have n4 : aliasRegexp "foo is bar".data = none := by decide
    have n5 : lookupRegexp "foo is bar".data = none := by decide
    have n6 : forgetIsRegexp "foo is bar".data = none := by decide
    have n7 : forgetRegexp "foo is bar".data = none := by decide
    have n8 : whatRegexp "foo is bar".data = false := by decide
    have n9 : listVarsRegexp "foo is bar".data = false := by decide
    have n10 : listVarRegexp "foo is bar".data = none := by decide
    have n11 : removeValRegexp "foo is bar".data = none := by decide
    have n12 : addValRegexp "foo is bar".data = none := by decide
    have n13 : createVarRegexp "foo is bar".data = none := by decide
    have n14 : removeVarRegexp "foo is bar".data = none := by decide
    have n15 : fullInventoryRegexp "foo is bar".data = false := by decide
    have n16 : inventoryRegexp "foo is bar".data = false := by decide
    have n17 : isRegexp "foo is bar".data =
        some (['f', 'o', 'o'], (['i', 's'], ['b', 'a', 'r'])) := by decide
    simp only [mentionCallback, m1, m2, m3, m4, m5, m6, m7, m8, m9, m10, m11, m12, m13,
      m14, m15, m16, m17, n1, n2, n3, n4, n5, n6, n7, n8, n9, n10, n11, n12, n13, n14,
      n15, n16, n17, Bool.false_eq_true, and_false, if_false]
    have h1 : toLowerGo (String.mk ['F', 'O', 'O']) = toLowerGo (String.mk ['f', 'o', 'o']) := by
      decide
    simp [isHandler, h1]

/-- C7: the template renderer (1) returns text with no `$` reference
unchanged, (2) substitutes the single value of a one-value variable
deterministically (the result does not depend on the randomness oracle),
and (3) substitutes the empty string for a reference whose variable is
absent or has no values. -/
theorem c7_render_contract :
    (∀ (st : Store) (rng : Nat → Nat) (text : List Char), (∀ c ∈ text, c ≠ '$') →
      renderTemplate st rng text = text) ∧
    (∀ (st : Store) (rng rng2 : Nat → Nat) (d : Char) (rest : List Char)
      (v : bucketValue), isAlphaNum d = true → isShellSpecialVar d = false →
      (∀ c ∈ rest, isAlphaNum c = true) →
      ((kvGet st.vars (String.mk (d :: rest))).getD {}).Values = [v] →
      renderTemplate st rng ('$' :: d :: rest) = v.Text.data ∧
      renderTemplate st rng ('$' :: d :: rest) = renderTemplate st rng2 ('$' :: d :: rest)) ∧
    (∀ (st : Store) (rng : Nat → Nat) (d : Char) (rest : List Char),
      isAlphaNum d = true → isShellSpecialVar d = false →
      (∀ c ∈ rest, isAlphaNum c = true) →
      ((kvGet st.vars (String.mk (d :: rest))).getD {}).Values = [] →
      renderTemplate st rng ('$' :: d :: rest) = []) := by
  have key : ∀ (st : Store) (rng : Nat → Nat) (d : Char) (rest : List Char),
      isAlphaNum d = true → isShellSpecialVar d = false →
      (∀ c ∈ rest, isAlphaNum c = true) →
      renderTemplate st rng ('$' :: d :: rest) = (renderMapping st rng (d :: rest) 0).1 := by
    intro st rng d rest hd hds hr
    have hg : getShellName (d :: rest) = (d :: rest, (d :: rest).length) := by
      rw [getShellName_alphanum hd hds hr]
      simp
    exact renderTemplate_single st rng hg (by simp)
  refine ⟨fun st rng text h => ?_, fun st rng rng2 d rest v hd hds hr hv => ?_,
    fun st rng d rest hd hds hr hv => ?_⟩
  · simp [renderTemplate, expandGo_no_dollar h]
  · have hmap : ∀ rng3 : Nat → Nat,
        renderTemplate st rng3 ('$' :: d :: rest) = v.Text.data := by
      intro rng3
      rw [key st rng3 d rest hd hds hr]
      simp [renderMapping, hv, Nat.mod_one]
    exact ⟨hmap rng, (hmap rng).trans (hmap rng2).symm⟩
  · rw [key st rng d rest hd hds hr]
    simp [renderMapping, hv]

/-- C7, witness: no-reference text is unchanged; `$x` with the single value
`red` renders to `red`; `$x` against the empty store renders to the empty
string. -/
theorem c7_render_contract_witness :
    renderTemplate { vars := [("x", ⟨[⟨"red", "a"⟩], "adm"⟩)] } (fun _ => 0) "abc".data =
      "abc".data ∧
    renderTemplate { vars := [("x", ⟨[⟨"red", "a"⟩], "adm"⟩)] } (fun _ => 7)
      ('$' :: 'x' :: []) = "red".data ∧
    renderTemplate {} (fun _ => 0) ('$' :: 'x' :: []) = [] := by
  refine ⟨c7_render_contract.1 _ _ _ (by decide), ?_, ?_⟩
  · exact (c7_render_contract.2.1 _ (fun _ => 7) (fun _ => 0) 'x' [] ⟨"red", "a"⟩
      (by decide) (by decide) (by decide) (by decide)).1
  · exact c7_render_contract.2.2 _ _ 'x' [] (by decide) (by decide) (by decide) (by decide)

/-- C8: `add value <name> <text>` on an existing variable appends the value,
with the requester recorded as creator, as the last element of the value
list and confirms; on an absent variable the store is left unchanged (no
value appended, no variable created) and a reply surfacing the storage
error is emitted (through the source's two-verb format string that is
passed a single argument). -/
theorem c8_add_value :
    ∀ (name text : List Char) (who tgt : String) (op pb : Bool) (rng : Nat → Nat)
      (st : Store),
    name ≠ [] → (∀ c ∈ name, isWordChar c = true) → noNL text = true →
    (∀ v : bucketVariable, kvGet st.vars (String.mk name) = some v →
      mentionCallback ⟨String.mk ("add value ".data ++ (name ++ ' ' :: text)), who, op,
          pb, tgt⟩ rng st =
        (⟨st.facts, kvPut st.vars (toLowerGo (String.mk name))
            ⟨v.Values ++ [⟨String.mk text, who⟩], v.Creator⟩⟩,
          [Reply.reply ("Ok " ++ who ++ ", added " ++ String.mk text ++ " to variable " ++
            toLowerGo (String.mk name))])) ∧
    (kvGet st.vars (String.mk name) = none →
      mentionCallback ⟨String.mk ("add value ".data ++ (name ++ ' ' :: text)), who, op,
          pb, tgt⟩ rng st =
        (st, [Reply.reply ("Ok " ++ nutKeyNotFound ++ ", %!s(MISSING)")])) := by
  intro name text who tgt op pb rng st hn hw ht
  have e1 : literalRegexp ("add value ".data ++ (name ++ ' ' :: text)) = none :=
    literalRegexp_none (stripCI_append_of_take_none _ _ _ (by decide))
  have e2 : undoRegexp ("add value ".data ++ (name ++ ' ' :: text)) = false :=
    undoRegexp_false (stripCI_append_of_take_none _ _ _ (by decide))
  have e3 : mergeRegexp ("add value ".data ++ (name ++ ' ' :: text)) = none :=
    mergeRegexp_none (stripCI_append_of_take_none _ _ _ (by decide))
  have e4 : aliasRegexp ("add value ".data ++ (name ++ ' ' :: text)) = none :=
    aliasRegexp_none (stripCI_append_of_take_none _ _ _ (by decide))
  have e5 : lookupRegexp ("add value ".data ++ (name ++ ' ' :: text)) = none :=
    lookupRegexp_none (stripCI_append_of_take_none _ _ _ (by decide))
  have e6 : forgetIsRegexp ("add value ".data ++ (name ++ ' ' :: text)) = none :=
    forgetIsRegexp_none (stripCI_append_of_take_none _ _ _ (by decide))
  have e7 : forgetRegexp ("add value ".data ++ (name ++ ' ' :: text)) = none :=
    forgetRegexp_none (stripCI_append_of_take_none _ _ _ (by decide))
  have e8 : whatRegexp ("add value ".data ++ (name ++ ' ' :: text)) = false :=
    whatRegexp_false (stripCI_append_of_take_none _ _ _ (by decide))
  have e9 : listVarsRegexp ("add value ".data ++ (name ++ ' ' :: text)) = false :=
    listVarsRegexp_false (stripCI_append_of_take_none _ _ _ (by decide))
  have e10 : listVarRegexp ("add value ".data ++ (name ++ ' ' :: text)) = none :=
    listVarRegexp_none (stripCI_append_of_take_none _ _ _ (by decide))
  have e11 : removeValRegexp ("add value ".data ++ (name ++ ' ' :: text)) = none :=
    removeValRegexp_none (stripCI_append_of_take_none _ _ _ (by decide))
  have e12 : addValRegexp ("add value ".data ++ (name ++ ' ' :: text)) =
      some (name, text) := by
    rw [addValRegexp,
      stripCI_append_of_some "add value ".data "add value ".data (name ++ ' ' :: text) []
        (by decide)]
    simp only [List.nil_append, Option.some_bind]
    exact wordThenRest_eval hn hw ht
  constructor
  · intro v hv
    have hk : kvGet st.vars (toLowerGo (String.mk name)) = some v := by
      rw [kvGet_congr _ (toLowerGo_idem _)]
      exact hv
    simp only [mentionCallback, e1, e2, e3, e4, e5, e6, e7, e8, e9, e10, e11, e12,
      addValHandler, hk, Bool.false_eq_true, if_false]
  · intro hv
    have hk : kvGet st.vars (toLowerGo (String.mk name)) = none := by
      rw [kvGet_congr _ (toLowerGo_idem _)]
      exact hv
    simp only [mentionCallback, e1, e2, e3, e4, e5, e6, e7, e8, e9, e10, e11, e12,
      addValHandler, hk, Bool.false_eq_true, if_false]

/-- C8, witness: adding `red` to the existing (empty) variable `color`
appends it; adding to a variable absent from the store leaves the store
unchanged and emits the error reply. -/
theorem c8_add_value_witness :
    mentionCallback ⟨String.mk ("add value ".data ++ ("color".data ++ ' ' :: "red".data)),
        "bob", false, true, "#c"⟩ (fun _ => 0) { vars := [("color", ⟨[], "adm"⟩)] } =
      ({ vars := [("color", ⟨[⟨"red", "bob"⟩], "adm"⟩)] },
        [Reply.reply "Ok bob, added red to variable color"]) ∧
    mentionCallback ⟨String.mk ("add value ".data ++ ("color".data ++ ' ' :: "red".data)),
        "bob", false, true, "#c"⟩ (fun _ => 0) {} =
      (({} : Store), [Reply.reply "Ok key not found, %!s(MISSING)"]) := by
  constructor
  · exact (c8_add_value "color".data "red".data "bob" "#c" false true (fun _ => 0)
      { vars := [("color", ⟨[], "adm"⟩)] } (by decide) (by decide) (by decide)).1
      ⟨[], "adm"⟩ (by decide)
  · exact (c8_add_value "color".data "red".data "bob" "#c" false true (fun _ => 0)
      {} (by decide) (by decide) (by decide)).2 (by decide)


theorem normalizeVerb_id {v : List Char} (h1 : v ≠ "is also".data)
    (h2 : v.head? ≠ some '<') : normalizeVerb v = v := by
  rw [normalizeVerb, if_neg h1, if_neg h2]

/-- C9: the verb normalization shared by the forget-response and generic
statement branches maps `is also` to `is` (first conjunct), strips the
angle brackets from a bracketed custom verb (second conjunct), leaves every
other verb — anything other than the exact text `is also` and anything not
starting with `<` — unchanged (third conjunct), and is idempotent on every
verb the pattern's capture group can produce (fourth conjunct). -/
theorem c9_verb_normalization :
    normalizeVerb "is also".data = "is".data ∧
    (∀ w : List Char, normalizeVerb ('<' :: (w ++ ['>'])) = w) ∧
    (∀ v : List Char, v ≠ "is also".data → v.head? ≠ some '<' →
      normalizeVerb v = v) ∧
    (∀ v : List Char, producibleVerb v = true →
      normalizeVerb (normalizeVerb v) = normalizeVerb v) := by
  refine ⟨by decide, fun w => ?_, fun v h1 h2 => normalizeVerb_id h1 h2, fun v hp => ?_⟩
  · have h1 : ('<' :: (w ++ ['>'])) ≠ "is also".data := by
      intro he
      rw [show ("is also".data : List Char) =
        'i' :: 's' :: ' ' :: 'a' :: 'l' :: 's' :: 'o' :: [] from rfl] at he
      exact absurd (List.head_eq_of_cons_eq he) (by decide)
    have hcond : ('<' :: (w ++ ['>'])).head? = some '<' := rfl
    rw [normalizeVerb, if_neg h1, if_pos hcond]
    exact List.dropLast_concat
  · simp only [producibleVerb, Bool.or_eq_true, Bool.and_eq_true, beq_iff_eq,
      Bool.not_eq_true'] at hp
    rcases hp with ((hp | hp) | hp) | hp
    · rcases v with _ | ⟨c1, _ | ⟨c2, _ | ⟨c3, r⟩⟩⟩ <;> simp only [List.map] at hp
      · exact absurd hp (by decide)
      · exact absurd hp (by simp)
      · have hf1 : foldChar c1 = 'i' := (List.cons.injEq _ _ _ _ ▸ hp).1
        have hid : normalizeVerb [c1, c2] = [c1, c2] := by
          refine normalizeVerb_id ?_ ?_
          · intro he
            exact absurd (congrArg List.length he) (by simp)
          · intro he
            injection he with he2
            rw [he2] at hf1
            exact absurd hf1 (by decide)
        rw [hid, hid]
      · exact absurd hp (by simp)
    · rcases v with _ | ⟨c1, _ | ⟨c2, _ | ⟨c3, _ | ⟨c4, r⟩⟩⟩⟩ <;> simp only [List.map] at hp
      · exact absurd hp (by decide)
      · exact absurd hp (by simp)
      · exact absurd hp (by simp)
      · have hf1 : foldChar c1 = 'a' := (List.cons.injEq _ _ _ _ ▸ hp).1
        have hid : normalizeVerb [c1, c2, c3] = [c1, c2, c3] := by
          refine normalizeVerb_id ?_ ?_
          · intro he
            exact absurd (congrArg List.length he) (by simp)
          · intro he
            injection he with he2
            rw [he2] at hf1
            exact absurd hf1 (by decide)
        rw [hid, hid]
      · exact absurd hp (by simp)
    · by_cases hex : v = "is also".data
      · rw [hex]
        decide
      · have hf1 : v.head? ≠ some '<' := by
          intro he
        -- head of v folds to 'i' by hp, so it cannot be '<'
          rcases v with _ | ⟨c, u⟩
          · simp at he
          · simp only [List.head?, Option.some.injEq] at he
            simp only [List.map] at hp
            have := (List.cons.injEq _ _ _ _ ▸ hp).1
            rw [he] at this
            exact absurd this (by decide)
        have hid := normalizeVerb_id hex hf1
        rw [hid, hid]
    · rcases v with _ | ⟨c, u⟩
      · simp at hp
      · obtain ⟨⟨⟨hhead, hne⟩, hall⟩, hlast⟩ := hp
        simp only [List.head?, Option.some.injEq] at hhead
        subst hhead
        simp only [List.tail_cons] at hne hall hlast
        have h1 : ('<' :: u) ≠ "is also".data := by
          intro he
          exact absurd (List.head_eq_of_cons_eq he) (by decide)
        have hv1 : normalizeVerb ('<' :: u) = u.dropLast := by
          have hcond : ('<' :: u).head? = some '<' := rfl
          rw [normalizeVerb, if_neg h1, if_pos hcond]
          rfl
        rw [hv1]
        refine normalizeVerb_id ?_ ?_
        · intro he
          rw [he] at hall
          exact absurd hall (by decide)
        · intro he
          rcases hu : u.dropLast with _ | ⟨c2, u2⟩
          · rw [hu] at he
            simp at he
          · rw [hu] at he hall
            simp only [List.head?, Option.some.injEq] at he
            simp only [List.all_cons, Bool.and_eq_true] at hall
            rw [he] at hall
            exact absurd hall.1 (by decide)

/-- C9, witness: `are` is unchanged by normalization; a bracketed custom
verb normalizes idempotently. -/
theorem c9_verb_normalization_witness :
    normalizeVerb "are".data = "are".data ∧
    normalizeVerb (normalizeVerb "<loves>".data) = normalizeVerb "<loves>".data := by
  constructor
  · exact c9_verb_normalization.2.2.1 "are".data (by decide) (by decide)
  · exact c9_verb_normalization.2.2.2 "<loves>".data (by decide)

theorem removeFirstMatch_not_found (verb text : String) (rs : List bucketFactResponse)
    (h : (removeFirstMatch verb text rs).1 = false) :
    (removeFirstMatch verb text rs).2 = rs := by
  induction rs with
  | nil => rfl
  | cons r rest ih =>
    by_cases hm : r.Text = text ∧ r.Verb = verb
    · simp [removeFirstMatch, hm] at h
    · simp only [removeFirstMatch, if_neg hm] at h ⊢
      rw [ih h]

/-- C10: the forget-response removal deletes at most one response.  When no
stored response matches the (normalized verb, text) pair the list comes
back element for element unchanged (first conjunct) and the handler writes
that unchanged list back while replying that the response was not found
(third conjunct); when a response matches, exactly the earliest match — the
one at the first matching index — is removed, the earlier and later
responses keeping their relative order (second conjunct). -/
theorem c10_forget_removes_first :
    ∀ (verb text : String) (rs : List bucketFactResponse),
    ((∀ r ∈ rs, ¬(r.Text = text ∧ r.Verb = verb)) →
      removeFirstMatch verb text rs = (false, rs)) ∧
    (∀ (k : Nat) (r : bucketFactResponse), rs.get? k = some r → r.Text = text →
      r.Verb = verb →
      (∀ (j : Nat) (rj : bucketFactResponse), j < k → rs.get? j = some rj →
        ¬(rj.Text = text ∧ rj.Verb = verb)) →
      removeFirstMatch verb text rs = (true, rs.take k ++ rs.drop (k + 1))) ∧
    (∀ (st : Store) (who : String) (m1 m2 m3 : List Char),
      ((kvGet st.facts (toLowerGo (String.mk m1))).getD {}).Responses = rs →
      (removeFirstMatch (String.mk (normalizeVerb m2)) (String.mk m3) rs).1 = false →
      forgetIsHandler who m1 m2 m3 st =
        (⟨kvPut st.facts (toLowerGo (String.mk m1)) ⟨rs⟩, st.vars⟩,
          [Reply.reply ("Ok " ++ who ++ ", couldn't find " ++ String.mk m1 ++ " " ++
            String.mk (normalizeVerb m2) ++ " " ++ String.mk m3)])) := by
  intro verb text rs
  refine ⟨fun h => removeFirstMatch_none verb text h,
    fun k r hk ht hv hb => removeFirstMatch_found verb text k r hk ht hv hb,
    fun st who m1 m2 m3 hrs hfalse => ?_⟩
  have h2 := removeFirstMatch_not_found (String.mk (normalizeVerb m2)) (String.mk m3)
    rs hfalse
  simp only [forgetIsHandler, hrs]
  rw [if_neg (by simp [hfalse]), h2]

/-- C10, witness: a list with no matching response is returned unchanged; a
list holding two matches loses exactly the earlier one; the handler on a
store without the fact replies "couldn't find" and writes the (empty)
response list back. -/
theorem c10_forget_removes_first_witness :
    removeFirstMatch "is" "bar" [⟨"zap", "a", "is"⟩] = (false, [⟨"zap", "a", "is"⟩]) ∧
    removeFirstMatch "is" "bar" [⟨"zap", "a", "is"⟩, ⟨"bar", "a", "is"⟩, ⟨"bar", "b", "is"⟩] =
      (true, [⟨"zap", "a", "is"⟩, ⟨"bar", "b", "is"⟩]) ∧
    forgetIsHandler "bob" "foo".data "is".data "bar".data {} =
      (⟨[("foo", ⟨[]⟩)], []⟩, [Reply.reply "Ok bob, couldn't find foo is bar"]) := by
  refine ⟨(c10_forget_removes_first "is" "bar" _).1 (by decide), ?_, ?_⟩
  · exact (c10_forget_removes_first "is" "bar"
      [⟨"zap", "a", "is"⟩, ⟨"bar", "a", "is"⟩, ⟨"bar", "b", "is"⟩]).2.1 1
      ⟨"bar", "a", "is"⟩ (by decide) (by decide) (by decide)
      (by
        intro j rj hj hget
        have hj0 : j = 0 := by omega
        subst hj0
        simp only [List.get?] at hget
        injection hget with hg
        rw [← hg]
        decide)
  · exact (c10_forget_removes_first "is" "bar" []).2.2 {} "bob" "foo".data "is".data
      "bar".data (by decide) (by decide)
